import Mathlib

/-!
Verification of the `sdsupreme` audio player (`src/main.rs`) against its
natural-language specification.  The Rust source is shallowly embedded:
pure computations become Lean functions, the stateful loops become
explicit functions over finite traces of their inputs (poll results,
elapsed-time samples, interleaved atomic actions), and fallible or
panicking code returns `Option`.
-/

/-- The pause-toggle performed by both the key handler and the Ctrl+C
handler in `main.rs`: `let paused = is_paused.load(..); is_paused.store(!paused, ..)`.
Sequentially this is boolean negation of the shared flag. -/
def toggle (b : Bool) : Bool := !b

/-! ### Progress bar (`print_progress_bar`, main.rs lines 65-79)

The Rust code computes `progress = elapsed as f64 / total as f64` (in
`play_music`) and `filled_length = (bar_length as f64 * progress) as usize`.
The `f64` arithmetic is modelled exactly over `ℚ`; the `as usize` cast
(truncation toward zero, saturating at 0) is `Int.floor` followed by
`Int.toNat`, which agrees with it on the nonnegative values arising here. -/

/-- Fixed bar width, `let bar_length = 50` in `print_progress_bar`. -/
def bar_length : ℕ := 50

/-- Number of filled cells: `(bar_length as f64 * progress) as usize` with
`progress = elapsed / total` (division modelled exactly over `ℚ`). -/
def filled_length (elapsed total : ℕ) : ℕ :=
  (⌊(bar_length : ℚ) * ((elapsed : ℚ) / (total : ℚ))⌋).toNat

/-- The rendered bar: `"=".repeat(filled_length) + &"-".repeat(bar_length - filled_length)`,
as a list of character cells. -/
def progress_bar (elapsed total : ℕ) : List Char :=
  List.replicate (filled_length elapsed total) '=' ++
    List.replicate (bar_length - filled_length elapsed total) '-'

/-! ### Audio worker loop (`play_music`, main.rs lines 32-63)

Each iteration of the worker loop samples the wall clock
(`start_time.elapsed().as_secs()`) and the shared pause flag once; we model
a finite run of the loop by the finite trace of those per-iteration
samples.  An iteration applies `pause()` or `play()` to the sink, then
(after the 100 ms sleep) breaks when `elapsed >= total`. -/

/-- One iteration's inputs: the sampled elapsed seconds and pause flag. -/
structure Tick where
  elapsed : ℕ
  pauseFlag : Bool
deriving DecidableEq

/-- A command issued to the sink each iteration. -/
inductive SinkCmd where
  | pauseCmd
  | playCmd
deriving DecidableEq

/-- The sink command chosen by one worker iteration:
`if is_paused.load(..) { sink.pause() } else { sink.play() }`. -/
def sink_cmd (t : Tick) : SinkCmd :=
  if t.pauseFlag then SinkCmd.pauseCmd else SinkCmd.playCmd

/-- `duration = source.total_duration().unwrap_or(Duration::new(0, 0))`:
an undeterminable duration is replaced by zero. -/
def total_duration_or_zero (d : Option ℕ) : ℕ := d.getD 0

/-- The worker control loop of `play_music` run over a finite trace of
per-iteration samples.  Returns the sink commands issued and the index of
the iteration whose `elapsed >= total` check broke the loop (`none` if the
trace was exhausted while still looping). -/
def play_loop : List Tick → ℕ → List SinkCmd × Option ℕ
  | [], _ => ([], none)
  | t :: ts, total =>
    if total ≤ t.elapsed then ([sink_cmd t], some 0)
    else
      let r := play_loop ts total
      (sink_cmd t :: r.1, r.2.map (· + 1))

/-- The iterations actually executed by `play_loop`: up to and including
the breaking iteration, or the whole trace if no break occurred. -/
def exec_len (ts : List Tick) (total : ℕ) : ℕ :=
  match (play_loop ts total).2 with
  | some i => i + 1
  | none => ts.length

/-! ### Track selection (`main`, main.rs lines 103-116)

`read_line` puts the typed line (with its trailing newline) into `input`;
the code then runs `input.trim().parse::<usize>().expect("Please enter a
valid number")`, and only a successfully parsed selection reaches the
range check `selection >= music_files.len()`. -/

/-- Model of `str::trim`: strip leading and trailing whitespace. -/
def rust_trim (s : String) : String :=
  ⟨((s.data.dropWhile Char.isWhitespace).reverse.dropWhile Char.isWhitespace).reverse⟩

/-- Numeric value of an ascii digit character. -/
def digit_val (c : Char) : ℕ := c.toNat - 48

/-- Model of `str::parse::<usize>`: an optional leading `+`, then one or
more ascii digits, with the value below `2^64`; anything else fails. -/
def parse_usize (s : String) : Option ℕ :=
  let ds := match s.data with
    | '+' :: rest => rest
    | cs => cs
  if !ds.isEmpty && ds.all Char.isDigit then
    let v := ds.foldl (fun a c => a * 10 + digit_val c) 0
    if v < 2 ^ 64 then some v else none
  else none

/-- How the selection step of `main` concludes: `panicked` is the
`expect` panic on an unparsable line, `invalidSelection` is the
`eprintln!("Invalid selection."); return Ok(())` path reached before any
sink is created, any worker thread is spawned or any terminal mode is
changed, and `playbackStarted` is the path that goes on to set all of
those up for the chosen file. -/
inductive SelectOutcome where
  | panicked (msg : String)
  | invalidSelection
  | playbackStarted (file : String)
deriving DecidableEq

/-- The selection logic of `main`: parse the typed line, panic if it is
not a valid number, reject an out-of-range index, otherwise start
playback of the indexed file. -/
def select_and_play (files : List String) (input : String) : SelectOutcome :=
  match parse_usize (rust_trim input) with
  | none => SelectOutcome.panicked "Please enter a valid number"
  | some selection =>
    if h : files.length ≤ selection then SelectOutcome.invalidSelection
    else SelectOutcome.playbackStarted (files.get ⟨selection, Nat.lt_of_not_le h⟩)

/-! ### Directory scan (`list_music_files`, main.rs lines 20-30)

`WalkDir::new(path)` yields a preorder stream of `Result<DirEntry>`
values: the root first, then each reachable entry; a directory that
cannot be read contributes an error item in place of its contents.  The
Rust loop calls `entry.unwrap()` on every item (panicking on the first
error item) and keeps the paths of files whose extension is `flac`. -/

/-- A directory tree; a `dir` with `readable := false` models a
directory whose contents cannot be listed (e.g. permission denied). -/
inductive FsTree where
  | file (name : String)
  | dir (name : String) (readable : Bool) (children : List FsTree)

/-- One successfully produced directory entry: its path and whether the
path is a regular file (`path.is_file()`). -/
structure FsEntry where
  path : String
  isFile : Bool
deriving DecidableEq

mutual

/-- The stream of `Result` items produced by `WalkDir` over the tree,
with `pre` the path prefix of the current node. -/
def walk (pre : String) : FsTree → List (Except String FsEntry)
  | FsTree.file n => [Except.ok ⟨pre ++ n, true⟩]
  | FsTree.dir n readable cs =>
    if readable then Except.ok ⟨pre ++ n, false⟩ :: walk_children (pre ++ n ++ "/") cs
    else [Except.ok ⟨pre ++ n, false⟩, Except.error (pre ++ n)]

/-- Walk each child in order, concatenating the entry streams. -/
def walk_children (pre : String) : List FsTree → List (Except String FsEntry)
  | [] => []
  | c :: cs => walk pre c ++ walk_children pre cs

end

/-- Split a character list on a separator character, keeping empty
segments, like `str::split`. -/
def split_on_char (sep : Char) : List Char → List (List Char)
  | [] => [[]]
  | c :: cs =>
    if c = sep then [] :: split_on_char sep cs
    else
      match split_on_char sep cs with
      | [] => [[c]]
      | g :: gs => (c :: g) :: gs

/-- The final path component, as `Path::file_name` sees it. -/
def file_name (path : String) : String :=
  ⟨(split_on_char '/' path.data).getLastD []⟩

/-- Model of `Path::extension`: the part of the file name after the last
dot, provided the name has a dot that is not its leading character. -/
def extension (name : String) : Option String :=
  match split_on_char '.' name.data with
  | [] => none
  | [_] => none
  | [[], _] => none
  | ps => ps.getLast?.map fun cs => ⟨cs⟩

/-- Whether a walked item is an error item (an unreadable entry). -/
def is_err_entry : Except String FsEntry → Bool
  | Except.error _ => true
  | Except.ok _ => false

/-- The body of the `for entry in WalkDir::new(path)` loop: `unwrap` each
item (modelled by returning `none`, the panic, as soon as an error item
is reached) and collect the paths of files with extension `flac` in
stream order. -/
def collect_music : List (Except String FsEntry) → Option (List String)
  | [] => some []
  | Except.error _ :: _ => none
  | Except.ok e :: rest =>
    (collect_music rest).map fun acc =>
      if e.isFile && (extension (file_name e.path) == some "flac") then
        e.path :: acc
      else acc

/-- `list_music_files`: walk the tree rooted at the given path and filter
for `.flac` files, panicking (`none`) on the first unreadable entry. -/
def list_music_files (t : FsTree) : Option (List String) :=
  collect_music (walk "" t)

/-- A root directory holding `a.flac`, `b.flac` and `c.mp3` nested three
levels deep, the scenario of the specification's enumeration test. -/
def demo_tree : FsTree :=
  FsTree.dir "root" true
    [FsTree.dir "d1" true
      [FsTree.dir "d2" true
        [FsTree.file "a.flac", FsTree.file "b.flac", FsTree.file "c.mp3"]]]

/-! ### Foreground control loop and terminal session (`main`, lines 136-164)

The foreground runs `EnterAlternateScreen`, `enable_raw_mode` and
`cursor::Hide`, then loops polling for key events; `'p'` toggles the
shared flag, `Esc` breaks the loop, and any error from `poll`/`read` is
propagated by `?`, returning from `main` at once.  The three teardown
calls (`disable_raw_mode`, `LeaveAlternateScreen`, `cursor::Show`) are
written only after the loop. -/

/-- A key code as the loop's `match` distinguishes it. -/
inductive KeyC where
  | charKey (c : Char)
  | escKey
  | otherKey
deriving DecidableEq

/-- The outcome of one `event::poll`/`event::read` round. -/
inductive PollRes where
  | pollErr
  | noEvent
  | keyEvent (k : KeyC)
  | nonKeyEvent
deriving DecidableEq

/-- How a finite run of the foreground loop ended. -/
inductive LoopExit where
  | quit
  | errExit
  | stillRunning
deriving DecidableEq

/-- The foreground key loop over a finite trace of poll outcomes,
threading the paused flag. -/
def control_loop (paused : Bool) : List PollRes → LoopExit × Bool
  | [] => (LoopExit.stillRunning, paused)
  | PollRes.pollErr :: _ => (LoopExit.errExit, paused)
  | PollRes.noEvent :: rest => control_loop paused rest
  | PollRes.nonKeyEvent :: rest => control_loop paused rest
  | PollRes.keyEvent (KeyC.charKey c) :: rest =>
    if c = 'p' then control_loop (toggle paused) rest
    else control_loop paused rest
  | PollRes.keyEvent KeyC.escKey :: _ => (LoopExit.quit, paused)
  | PollRes.keyEvent KeyC.otherKey :: rest => control_loop paused rest

/-- A terminal-state operation performed by `main`. -/
inductive TermAct where
  | enterAlt
  | rawOn
  | hideCur
  | rawOff
  | leaveAlt
  | showCur
deriving DecidableEq

/-- The setup sequence before the loop. -/
def setup_acts : List TermAct := [TermAct.enterAlt, TermAct.rawOn, TermAct.hideCur]

/-- The teardown sequence written after the loop. -/
def teardown_acts : List TermAct := [TermAct.rawOff, TermAct.leaveAlt, TermAct.showCur]

/-- The foreground of `main` from terminal setup onwards: run the key
loop and record which terminal operations execute.  The teardown
statements sit after the loop, so they run exactly when the loop ends by
`break` (the quit key); an error propagated by `?` returns from `main`
first. -/
def main_foreground (polls : List PollRes) : LoopExit × List TermAct :=
  let r := control_loop false polls
  (r.1, setup_acts ++ (if r.1 = LoopExit.quit then teardown_acts else []))

/-! ### The pause flag under concurrency (`main`, lines 125-128 and 148-151)

Both the Ctrl+C handler and the `'p'` key handler run
`let paused = is_paused.load(SeqCst); is_paused.store(!paused, SeqCst)` —
two separate atomic operations on the `AtomicBool`, not one atomic
read-modify-write.  We model every interleaving of the two contexts'
loads and stores explicitly: each context has a private register for the
loaded value, and a schedule is an arbitrary list of atomic actions. -/

/-- An atomic action: a load or store by context 0 (the key handler) or
context 1 (the Ctrl+C handler). -/
inductive RAct where
  | load0
  | store0
  | load1
  | store1
deriving DecidableEq

/-- The shared flag and both contexts' private registers. -/
structure RState where
  flag : Bool
  reg0 : Bool
  reg1 : Bool
deriving DecidableEq

/-- One atomic action: a load copies the flag into the context's
register, a store writes the negation of the register to the flag. -/
def rstep (s : RState) : RAct → RState
  | RAct.load0 => { s with reg0 := s.flag }
  | RAct.store0 => { s with flag := !s.reg0 }
  | RAct.load1 => { s with reg1 := s.flag }
  | RAct.store1 => { s with flag := !s.reg1 }

/-- Run a schedule of atomic actions from a state. -/
def rrun (s : RState) (acts : List RAct) : RState := acts.foldl rstep s

/-- The subsequence of one context's actions, `false` for a load and
`true` for a store. -/
def thread_steps (tid : Bool) (acts : List RAct) : List Bool :=
  acts.filterMap fun a =>
    match a, tid with
    | RAct.load0, false => some false
    | RAct.store0, false => some true
    | RAct.load1, true => some false
    | RAct.store1, true => some true
    | _, _ => none

/-- Whether a context's action subsequence is a run of complete toggles:
load, then store, repeated. -/
def complete_toggles : List Bool → Bool
  | [] => true
  | false :: true :: rest => complete_toggles rest
  | _ => false

/-- A schedule is a valid interleaving when each context performs
complete toggles in order. -/
def valid_sched (acts : List RAct) : Bool :=
  complete_toggles (thread_steps false acts) && complete_toggles (thread_steps true acts)

/-- Whether an action is a store. -/
def is_store : RAct → Bool
  | RAct.store0 => true
  | RAct.store1 => true
  | _ => false

/-- The number of toggles a schedule performs. -/
def toggle_count (acts : List RAct) : ℕ := (acts.filter is_store).length

/-- A schedule in which toggles never overlap: each toggle's load is
immediately followed by its store. -/
def seq_toggles : List Bool → List RAct
  | [] => []
  | false :: ts => RAct.load0 :: RAct.store0 :: seq_toggles ts
  | true :: ts => RAct.load1 :: RAct.store1 :: seq_toggles ts

/-! ### Theorems -/

/-- C3: applying the toggle an even number of times returns the paused
flag to its original value, and an odd number of times negates it. -/
theorem toggle_parity (b : Bool) (n : ℕ) :
    toggle^[2 * n] b = b ∧ toggle^[2 * n + 1] b = !b := by
  induction n with
  | zero => simp [toggle]
  | succ k ih =>
    have h2 : 2 * (k + 1) = 2 * k + 1 + 1 := by ring
    constructor
    · rw [h2, Function.iterate_succ_apply', ih.2]
      simp [toggle]
    · rw [h2, Function.iterate_succ_apply', Function.iterate_succ_apply', ih.2]
      simp [toggle]

/-- Helper: counting the filled cells of the rendered bar recovers
`filled_length`. -/
theorem count_filled (E T : ℕ) :
    (progress_bar E T).count '=' = filled_length E T := by
  simp [progress_bar, List.count_append, List.count_replicate]

/-- Helper: the exact-rational model of the float computation agrees with
natural-number floor division. -/
theorem filled_length_eq_div (E T : ℕ) :
    filled_length E T = bar_length * E / T := by
  unfold filled_length
  rw [Int.floor_toNat]
  have h : (bar_length : ℚ) * ((E : ℚ) / (T : ℚ)) =
      ((bar_length * E : ℕ) : ℚ) / (T : ℚ) := by
    push_cast
    ring
  rw [h, Nat.floor_div_nat, Nat.floor_natCast]

/-- C4: for total duration `T > 0` and elapsed times in `[0, T]`, the
rendered bar has exactly `⌊(E/T) * 50⌋` filled cells, and for fixed `T`
the filled-cell count is monotonically non-decreasing in the elapsed
time. -/
theorem progress_bar_filled_cells (T E1 E2 : ℕ) (hT : 0 < T) (h12 : E1 ≤ E2)
    (h2 : E2 ≤ T) :
    (progress_bar E2 T).count '=' = ⌊((E2 : ℚ) / (T : ℚ)) * 50⌋₊ ∧
      (progress_bar E1 T).count '=' ≤ (progress_bar E2 T).count '=' := by
  constructor
  · rw [count_filled, filled_length_eq_div]
    have h : ((E2 : ℚ) / (T : ℚ)) * 50 = ((bar_length * E2 : ℕ) : ℚ) / (T : ℚ) := by
      unfold bar_length
      push_cast
      ring
    rw [h, Nat.floor_div_nat, Nat.floor_natCast]
  · rw [count_filled, count_filled, filled_length_eq_div, filled_length_eq_div]
    exact Nat.div_le_div_right (Nat.mul_le_mul_left _ h12)

/-- Witness for C4 at `T = 2`, `E1 = E2 = 1`. -/
theorem progress_bar_filled_cells_witness :
    0 < 2 ∧ (1 : ℕ) ≤ 1 ∧ 1 ≤ 2 ∧
      ((progress_bar 1 2).count '=' = ⌊(((1 : ℕ) : ℚ) / ((2 : ℕ) : ℚ)) * 50⌋₊ ∧
        (progress_bar 1 2).count '=' ≤ (progress_bar 1 2).count '=') :=
  ⟨by decide, by decide, by decide,
    progress_bar_filled_cells 2 1 1 (by decide) (by decide) (by decide)⟩

/-- C5: the worker loop exits exactly at the first iteration whose sampled
elapsed time reaches the total duration — an expression over the elapsed
samples alone, so termination is independent of the pause flag's history —
and every executed iteration re-applies the sink command dictated by the
pause flag sampled at that iteration. -/
theorem play_loop_exit_at_first_reach (ts : List Tick) (total : ℕ) :
    (play_loop ts total).2 =
        List.findIdx? (fun e => decide (total ≤ e)) (ts.map Tick.elapsed) ∧
      (play_loop ts total).1 = (ts.take (exec_len ts total)).map sink_cmd := by
  constructor
  · induction ts with
    | nil => rfl
    | cons t ts ih =>
      by_cases h : total ≤ t.elapsed
      · simp [play_loop, h, List.findIdx?_cons]
      · simp [play_loop, h, List.findIdx?_cons, List.findIdx?_succ, ih]
  · induction ts with
    | nil => rfl
    | cons t ts ih =>
      by_cases h : total ≤ t.elapsed
      · simp [play_loop, h, exec_len]
      · have hlen : exec_len (t :: ts) total = exec_len ts total + 1 := by
          unfold exec_len
          simp only [play_loop, if_neg h]
          cases hr : (play_loop ts total).2 <;> simp [hr]
        rw [hlen]
        simp only [play_loop, if_neg h, List.take_succ_cons, List.map_cons]
        exact congrArg (sink_cmd t :: ·) ih

/-- C6 counterexample: with an undeterminable duration the total becomes
zero, and on a trace whose source would only be exhausted at the third
iteration the worker loop exits at iteration 0 — immediately, not at the
exhaustion of the source. -/
theorem play_loop_zero_duration_ignores_exhaustion :
    (play_loop [⟨0, false⟩, ⟨1, false⟩, ⟨2, false⟩] (total_duration_or_zero none)).2
        = some 0 ∧
      (play_loop [⟨0, false⟩, ⟨1, false⟩, ⟨2, false⟩] (total_duration_or_zero none)).2
        ≠ some 2 := by
  decide

/-- C6 amended: with a zero or undeterminable total duration the
termination check `elapsed >= total` does not crash and holds already at
the first iteration (`0 >= 0`), so the worker loop exits after exactly one
iteration, having issued exactly one sink command, regardless of the
trace's later contents. -/
theorem play_loop_zero_duration_exits_first_iteration (t : Tick) (ts : List Tick) :
    (play_loop (t :: ts) (total_duration_or_zero none)).2 = some 0 ∧
      (play_loop (t :: ts) (total_duration_or_zero none)).1 = [sink_cmd t] := by
  simp [play_loop, total_duration_or_zero]

/-- C7: on a root containing `a.flac`, `b.flac` and `c.mp3` three levels
deep, the recursive enumeration-then-filter returns exactly the two
`.flac` paths. -/
theorem list_music_files_demo :
    list_music_files demo_tree = some ["root/d1/d2/a.flac", "root/d1/d2/b.flac"] := by
  decide

/-- Helper: the collection loop panics (`none`) exactly when the entry
stream holds an error item. -/
theorem collect_music_none_iff (es : List (Except String FsEntry)) :
    collect_music es = none ↔ es.any is_err_entry = true := by
  induction es with
  | nil => simp [collect_music]
  | cons e rest ih =>
    cases e with
    | error msg => simp [collect_music, is_err_entry]
    | ok ent => simp [collect_music, is_err_entry, Option.map_eq_none', ih]

/-- C10: `list_music_files` panics via `unwrap` (modelled as `none`)
exactly when the walk of the tree yields an erroneous entry; it returns
normally (`some`) precisely when every entry in the tree is readable. -/
theorem list_music_files_unwrap_on_error (t : FsTree) :
    list_music_files t = none ↔ (walk "" t).any is_err_entry = true :=
  collect_music_none_iff (walk "" t)

/-- C8: any successfully parsed selection at or beyond the number of
discovered files ends in the invalid-selection outcome — the early
return before any sink, worker thread or terminal mode change. -/
theorem out_of_range_selection_rejected (files : List String) (input : String)
    (n : ℕ) (hp : parse_usize (rust_trim input) = some n)
    (hn : files.length ≤ n) :
    select_and_play files input = SelectOutcome.invalidSelection := by
  unfold select_and_play
  rw [hp]
  exact dif_pos hn

/-- Witness for C8: selection `5` against a single-file list. -/
theorem out_of_range_selection_rejected_witness :
    parse_usize (rust_trim "5\n") = some 5 ∧ List.length ["a"] ≤ 5 ∧
      select_and_play ["a"] "5\n" = SelectOutcome.invalidSelection :=
  ⟨by decide, by decide,
    out_of_range_selection_rejected ["a"] "5\n" 5 (by decide) (by decide)⟩

/-- C9: an input line that does not parse as an unsigned integer makes
the program panic with `Please enter a valid number` rather than report
an invalid selection, and the invalid-selection outcome is only ever
reached for an input that parsed successfully. -/
theorem unparsable_input_panics (files : List String) (input : String)
    (hp : parse_usize (rust_trim input) = none) :
    select_and_play files input = SelectOutcome.panicked "Please enter a valid number" ∧
      ∀ fs inp, select_and_play fs inp = SelectOutcome.invalidSelection →
        ∃ n, parse_usize (rust_trim inp) = some n := by
  constructor
  · unfold select_and_play
    rw [hp]
  · intro fs inp h
    unfold select_and_play at h
    cases hq : parse_usize (rust_trim inp) with
    | none =>
      rw [hq] at h
      simp at h
    | some n => exact ⟨n, rfl⟩

/-- Witness for C9: the non-numeric line `abc`. -/
theorem unparsable_input_panics_witness :
    parse_usize (rust_trim "abc") = none ∧
      (select_and_play ["x"] "abc" = SelectOutcome.panicked "Please enter a valid number" ∧
        ∀ fs inp, select_and_play fs inp = SelectOutcome.invalidSelection →
          ∃ n, parse_usize (rust_trim inp) = some n) :=
  ⟨by decide, unparsable_input_panics ["x"] "abc" (by decide)⟩

/-- C1 counterexample: when the very first poll of the control loop
fails, `main` exits through the `?` error path with none of the three
teardown operations executed — teardown does not run on every exit
path. -/
theorem teardown_skipped_on_error_exit :
    (main_foreground [PollRes.pollErr]).1 = LoopExit.errExit ∧
      (main_foreground [PollRes.pollErr]).2.count TermAct.rawOff = 0 ∧
      (main_foreground [PollRes.pollErr]).2.count TermAct.leaveAlt = 0 ∧
      (main_foreground [PollRes.pollErr]).2.count TermAct.showCur = 0 := by
  decide

/-- C1 amended: the teardown sequence (disable raw mode, leave alternate
screen, show cursor) executes exactly once when the control loop exits by
the quit key, and not at all otherwise — in particular an error
propagated out of the loop skips it entirely. -/
theorem teardown_exactly_on_quit (polls : List PollRes) :
    ((main_foreground polls).2.count TermAct.rawOff,
        (main_foreground polls).2.count TermAct.leaveAlt,
        (main_foreground polls).2.count TermAct.showCur) =
      if (main_foreground polls).1 = LoopExit.quit then (1, 1, 1)
      else (0, 0, 0) := by
  unfold main_foreground
  by_cases h : (control_loop false polls).1 = LoopExit.quit <;>
    simp [h, setup_acts, teardown_acts]

/-- Witness honouring the quit-key side of the amended C1 claim at a
concrete trace ending in the escape key. -/
theorem teardown_exactly_on_quit_witness :
    ((main_foreground [PollRes.keyEvent KeyC.escKey]).2.count TermAct.rawOff,
        (main_foreground [PollRes.keyEvent KeyC.escKey]).2.count TermAct.leaveAlt,
        (main_foreground [PollRes.keyEvent KeyC.escKey]).2.count TermAct.showCur) =
      if (main_foreground [PollRes.keyEvent KeyC.escKey]).1 = LoopExit.quit then (1, 1, 1)
      else (0, 0, 0) :=
  teardown_exactly_on_quit [PollRes.keyEvent KeyC.escKey]

/-- C2 counterexample: the interleaving load₀, load₁, store₀, store₁ is a
valid schedule of one complete toggle per context, yet from `false` it
ends with the flag `true`, while two toggles applied without loss give
`toggle^[2] false = false`: one toggle is lost. -/
theorem race_loses_a_toggle :
    valid_sched [RAct.load0, RAct.load1, RAct.store0, RAct.store1] = true ∧
      toggle_count [RAct.load0, RAct.load1, RAct.store0, RAct.store1] = 2 ∧
      (rrun ⟨false, false, false⟩
          [RAct.load0, RAct.load1, RAct.store0, RAct.store1]).flag ≠
        toggle^[toggle_count [RAct.load0, RAct.load1, RAct.store0, RAct.store1]] false := by
  decide

/-- C2 amended: each individual load and store of the `AtomicBool` is
atomic, so no torn value is ever observed; and whenever the toggles do
not overlap — each load immediately followed by its store — no toggle is
lost: the final flag is the initial flag negated once per toggle. -/
theorem race_sequential_toggles_exact (ts : List Bool) (s : RState) :
    (rrun s (seq_toggles ts)).flag = (s.flag ^^ decide (ts.length % 2 = 1)) := by
  induction ts generalizing s with
  | nil => simp [seq_toggles, rrun]
  | cons t rest ih =>
    have hx : ((rest.length + 1) % 2 = 1) ↔ ¬(rest.length % 2 = 1) := by omega
    cases t
    · show (rrun (rstep (rstep s RAct.load0) RAct.store0) (seq_toggles rest)).flag = _
      rw [ih]
      by_cases hp : rest.length % 2 = 1 <;>
        simp [rstep, hp, hx, List.length_cons]
    · show (rrun (rstep (rstep s RAct.load1) RAct.store1) (seq_toggles rest)).flag = _
      rw [ih]
      by_cases hp : rest.length % 2 = 1 <;>
        simp [rstep, hp, hx, List.length_cons]
